import Mathlib

/-!
Verification development for the spconv MNIST PTQ example
(`example/mnist/mnist_qat.py`).

The file shallowly embeds the data model and operations of the example:
sparse tensors (`SparseConvTensor`), the dense/sparse conversions
(`SparseConvTensor.from_dense`, `SparseConvTensor.toDense`), submanifold and
strided sparse convolutions, the fused conv–batchnorm–ReLU stages
(`SubMConvBNReLU`, `SparseConvBNReLU`), the networks `Net` and `NetPTQ`, the
training-loop precision policy, and the calibration phase of the
post-training-quantization pipeline.

The spconv library itself (sparse convolution kernels, `ToDense`,
quantization observers) is not part of the example source; those operations
are modelled from the specification, as noted on each definition.  Machine
floats are modelled by `ℚ`; the log-softmax numerics are abstracted into a
shape-preserving per-row normalization.
-/

/-- Modelled from the spec: `spconv.SparseConvTensor`, a batch of sparse
activations — index-aligned coordinate and feature lists, a dense spatial
extent and a batch size. -/
structure SparseConvTensor where
  features : List (List ℚ)
  indices : List (ℕ × ℕ × ℕ)
  spatial_shape : ℕ × ℕ
  batch_size : ℕ

/-- A dense batch tensor of shape `[batch_size, H, W, channels]`, as handed to
`SparseConvTensor.from_dense` by `train`/`test`/`calibrate`. -/
structure DenseBatch where
  batch_size : ℕ
  H : ℕ
  W : ℕ
  channels : ℕ
  data : ℕ → ℕ → ℕ → List ℚ

/-- Active sites of one row `(b, y, ·)` of a dense batch: the columns whose
channel vector differs from the zero sentinel. -/
def rowSites (d : DenseBatch) (b y : ℕ) : List (ℕ × ℕ × ℕ) :=
  ((List.range d.W).filter fun x =>
      d.data b y x ≠ List.replicate d.channels 0).map fun x => (b, y, x)

/-- Active sites of one sample `b` of a dense batch. -/
def planeSites (d : DenseBatch) (b : ℕ) : List (ℕ × ℕ × ℕ) :=
  (List.range d.H).flatMap (rowSites d b)

/-- All active sites of a dense batch, in row-major batch order. -/
def DenseBatch.activeSites (d : DenseBatch) : List (ℕ × ℕ × ℕ) :=
  (List.range d.batch_size).flatMap (planeSites d)

/-- Modelled from the spec: `SparseConvTensor.from_dense` — produce a
coordinate for every site whose channel vector differs from the zero
sentinel, with features index-aligned to the coordinates. -/
def SparseConvTensor.from_dense (d : DenseBatch) : SparseConvTensor :=
  { features := d.activeSites.map fun c => d.data c.1 c.2.1 c.2.2
    indices := d.activeSites
    spatial_shape := (d.H, d.W)
    batch_size := d.batch_size }

/-- First-match association lookup of a coordinate in a coordinate/feature
list; returns `[]` when the coordinate is absent. -/
def lookupCoord (c : ℕ × ℕ × ℕ) : List ((ℕ × ℕ × ℕ) × List ℚ) → List ℚ
  | [] => []
  | p :: rest => if p.1 = c then p.2 else lookupCoord c rest

/-- Feature vector stored at a coordinate of a sparse tensor (`[]` when the
site is inactive). -/
def featAt (t : SparseConvTensor) (c : ℕ × ℕ × ℕ) : List ℚ :=
  lookupCoord c (t.indices.zip t.features)

/-- Read a vector as the first `n` channels of a fixed-width slot of a
zero-initialized dense tensor. -/
def padTo (n : ℕ) (v : List ℚ) : List ℚ :=
  (List.range n).map fun i => v.getD i 0

/-- Modelled from the spec: `spconv.ToDense` — scatter the features back into
a zero-initialized dense tensor of shape `[batch_size, H, W, channels]`
indexed by the coordinates. -/
def SparseConvTensor.toDense (t : SparseConvTensor) (channels : ℕ) :
    ℕ → ℕ → ℕ → List ℚ :=
  fun b y x => padTo channels (featAt t (b, y, x))

/-- Parameters of one sparse convolution operator, fixed at construction
(`kernel_size`, `stride`, `padding`, `groups`, channel counts, weights and
bias). -/
structure ConvParams where
  in_planes : ℕ
  out_planes : ℕ
  kernel_size : ℕ
  stride : ℕ
  padding : ℕ
  groups : ℕ
  weight : ℕ → ℕ → ℕ → ℕ → ℚ
  bias : ℕ → ℚ

/-- Contribution of one kernel tap `(i, j)` at input coordinate `c` to output
channel `oc`, restricted to `oc`'s channel group. -/
def groupDot (P : ConvParams) (t : SparseConvTensor) (c : ℕ × ℕ × ℕ)
    (i j oc : ℕ) : ℚ :=
  let inPG := P.in_planes / P.groups
  let outPG := P.out_planes / P.groups
  let g := oc / outPG
  ((List.range inPG).map fun icl =>
    P.weight i j oc (g * inPG + icl) * (featAt t c).getD (g * inPG + icl) 0).sum

/-- Modelled from the spec: for one output site, gather features from the
kernel's receptive field (active input sites only — inactive sites contribute
zero) and apply the convolution weights. -/
def receptiveDot (P : ConvParams) (t : SparseConvTensor) (b y x oc : ℕ) : ℚ :=
  P.bias oc +
    ((List.range P.kernel_size).map fun i =>
      ((List.range P.kernel_size).map fun j =>
        if P.padding ≤ y * P.stride + i ∧ P.padding ≤ x * P.stride + j then
          groupDot P t
            (b, y * P.stride + i - P.padding, x * P.stride + j - P.padding) i j oc
        else 0).sum).sum

/-- Modelled from the spec: `spconv.SubMConv2d` — submanifold sparse
convolution, whose output occupies exactly the input coordinate set. -/
def subMConv2d (P : ConvParams) (t : SparseConvTensor) : SparseConvTensor :=
  { features := t.indices.map fun c =>
      (List.range P.out_planes).map fun oc => receptiveDot P t c.1 c.2.1 c.2.2 oc
    indices := t.indices
    spatial_shape := t.spatial_shape
    batch_size := t.batch_size }

/-- Modelled from the spec: dense output extent of a strided convolution,
`H' = floor((H + 2*padding - kernel_size)/stride) + 1`. -/
def convOutExtent (n kernel_size stride padding : ℕ) : ℕ :=
  (n + 2 * padding - kernel_size) / stride + 1

/-- Whether an output site of a strided convolution has at least one active
input coordinate in its receptive field. -/
def hasActiveInput (P : ConvParams) (t : SparseConvTensor) (b y x : ℕ) : Bool :=
  (List.range P.kernel_size).any fun i =>
    (List.range P.kernel_size).any fun j =>
      decide (P.padding ≤ y * P.stride + i) &&
      decide (P.padding ≤ x * P.stride + j) &&
      decide ((b, y * P.stride + i - P.padding,
               x * P.stride + j - P.padding) ∈ t.indices)

/-- Modelled from the spec: `spconv.SparseConv2d` — strided/reducing sparse
convolution; the output coordinate set is the subset of the dense output grid
whose receptive field contains at least one active input. -/
def sparseConv2d (P : ConvParams) (t : SparseConvTensor) : SparseConvTensor :=
  let hOut := convOutExtent t.spatial_shape.1 P.kernel_size P.stride P.padding
  let wOut := convOutExtent t.spatial_shape.2 P.kernel_size P.stride P.padding
  let idx := (List.range t.batch_size).flatMap fun b =>
    (List.range hOut).flatMap fun y =>
      ((List.range wOut).filter fun x => hasActiveInput P t b y x).map
        fun x => (b, y, x)
  { features := idx.map fun c =>
      (List.range P.out_planes).map fun oc => receptiveDot P t c.1 c.2.1 c.2.2 oc
    indices := idx
    spatial_shape := (hOut, wOut)
    batch_size := t.batch_size }

/-- Evaluation mode of a module (`model.train()` / `model.eval()`). -/
inductive Mode where
  | train
  | eval

/-- Fused normalization parameters of a `nn.BatchNorm1d` layer: per-channel
scale and shift plus the running statistics. -/
structure BNParams where
  scale : ℕ → ℚ
  shift : ℕ → ℚ
  running_mean : ℕ → ℚ

/-- Per-channel mean of a feature list (batch statistic). -/
def batchMean (fs : List (List ℚ)) (c : ℕ) : ℚ :=
  ((fs.map fun v => v.getD c 0).sum) / fs.length

/-- Momentum of the running statistics, `momentum=0.1` in the source. -/
def bnMomentum : ℚ := 1 / 10

/-- Modelled from the spec: `nn.BatchNorm1d` — per-channel affine
normalization using batch statistics in training mode (updating the running
statistics) and running statistics in evaluation mode. -/
def batchNorm1d (mode : Mode) (B : BNParams) (fs : List (List ℚ)) :
    List (List ℚ) × BNParams :=
  match mode with
  | .eval =>
      (fs.map fun v => v.mapIdx fun c q => B.scale c * (q - B.running_mean c) + B.shift c,
       B)
  | .train =>
      (fs.map fun v => v.mapIdx fun c q => B.scale c * (q - batchMean fs c) + B.shift c,
       { B with running_mean := fun c =>
          (1 - bnMomentum) * B.running_mean c + bnMomentum * batchMean fs c })

/-- `nn.ReLU` applied to every feature entry. -/
def reluF (fs : List (List ℚ)) : List (List ℚ) :=
  fs.map fun v => v.map fun q => max 0 q

/-- `nn.ReLU` applied to one dense vector. -/
def reluV (v : List ℚ) : List ℚ :=
  v.map fun q => max 0 q

/-- Convolution parameters built by `SubMConvBNReLU.__init__`: the padding is
derived from the kernel size alone as `(kernel_size - 1) // 2`, and the
convolution carries no bias. -/
def SubMConvBNReLU.conv (in_planes out_planes kernel_size stride groups : ℕ)
    (w : ℕ → ℕ → ℕ → ℕ → ℚ) : ConvParams :=
  { in_planes := in_planes
    out_planes := out_planes
    kernel_size := kernel_size
    stride := stride
    padding := (kernel_size - 1) / 2
    groups := groups
    weight := w
    bias := fun _ => 0 }

/-- Convolution parameters built by `SparseConvBNReLU.__init__`: the padding
is derived from the kernel size alone as `(kernel_size - 1) // 2`, and the
convolution carries no bias. -/
def SparseConvBNReLU.conv (in_planes out_planes kernel_size stride groups : ℕ)
    (w : ℕ → ℕ → ℕ → ℕ → ℚ) : ConvParams :=
  { in_planes := in_planes
    out_planes := out_planes
    kernel_size := kernel_size
    stride := stride
    padding := (kernel_size - 1) / 2
    groups := groups
    weight := w
    bias := fun _ => 0 }

/-- Forward of a `SubMConvBNReLU` stage: submanifold convolution, then
batchnorm, then ReLU; returns the new view and the updated normalization
parameters. -/
def SubMConvBNReLU.forward (mode : Mode) (P : ConvParams) (B : BNParams)
    (t : SparseConvTensor) : SparseConvTensor × BNParams :=
  let t1 := subMConv2d P t
  let r := batchNorm1d mode B t1.features
  (⟨reluF r.1, t1.indices, t1.spatial_shape, t1.batch_size⟩, r.2)

/-- Forward of a `SparseConvBNReLU` stage: strided sparse convolution, then
batchnorm, then ReLU; returns the new view and the updated normalization
parameters. -/
def SparseConvBNReLU.forward (mode : Mode) (P : ConvParams) (B : BNParams)
    (t : SparseConvTensor) : SparseConvTensor × BNParams :=
  let t1 := sparseConv2d P t
  let r := batchNorm1d mode B t1.features
  (⟨reluF r.1, t1.indices, t1.spatial_shape, t1.batch_size⟩, r.2)

/-- Modelled from the spec: the final log-probability normalization
(`F.log_softmax`) over one row of class scores.  Its transcendental numerics
are abstracted into a per-row entry function `nf`; the normalization maps a
row of scores to a same-length row of log-probabilities. -/
def logProbNormalize (nf : List ℚ → ℕ → ℚ) (v : List ℚ) : List ℚ :=
  (List.range v.length).map (nf v)

/-- Densify a sparse view and flatten each sample to one row
(`spconv.ToDense` followed by `torch.flatten(x, 1)`). -/
def flattenDense (t : SparseConvTensor) (channels : ℕ) : List (List ℚ) :=
  (List.range t.batch_size).map fun b =>
    (List.range t.spatial_shape.1).flatMap fun y =>
      (List.range t.spatial_shape.2).flatMap fun x =>
        padTo channels (featAt t (b, y, x))

/-- A dense `nn.Linear` layer with `out_features` outputs. -/
def linear (w : ℕ → ℕ → ℚ) (bv : ℕ → ℚ) (out_features : ℕ) (v : List ℚ) :
    List ℚ :=
  (List.range out_features).map fun o =>
    bv o + ((List.range v.length).map fun i => w o i * v.getD i 0).sum

/-- Modelled from the spec: `nn.Dropout2d` — in training mode, zero the
entries selected by the (externally drawn) random mask and rescale the rest;
in evaluation mode, the identity. -/
def dropout (mode : Mode) (mask : ℕ → Bool) (rate : ℚ) (v : List ℚ) : List ℚ :=
  match mode with
  | .eval => v
  | .train => v.mapIdx fun i q => if mask i then 0 else q / (1 - rate)

/-- Parameters of `NetPTQ`: the weights of its six convolution stages, the
bias of the terminal `SparseConv2d(64, 10, 4, 4)`, and the batchnorm
parameters of the five fused stages. -/
structure NetPTQ where
  w1 : ℕ → ℕ → ℕ → ℕ → ℚ
  w2 : ℕ → ℕ → ℕ → ℕ → ℚ
  w3 : ℕ → ℕ → ℕ → ℕ → ℚ
  w4 : ℕ → ℕ → ℕ → ℕ → ℚ
  w5 : ℕ → ℕ → ℕ → ℕ → ℚ
  w6 : ℕ → ℕ → ℕ → ℕ → ℚ
  bias6 : ℕ → ℚ
  bn1 : BNParams
  bn2 : BNParams
  bn3 : BNParams
  bn4 : BNParams
  bn5 : BNParams

/-- The sparse sequential part of `NetPTQ.__init__`: three submanifold 3×3
stages would be two — the source has two `SubMConvBNReLU(·,·,3)` stages —
followed by the strided stages `SparseConvBNReLU(64,64,2,2)` (→14×14),
`SparseConvBNReLU(64,64,2,2)` (→7×7), `SparseConvBNReLU(64,64,3,2,1)` (→4×4)
and the terminal `SparseConv2d(64,10,4,4)` (→1×1); returns the final view and
the updated batchnorm states. -/
def netPTQConvStack (mode : Mode) (m : NetPTQ) (v : SparseConvTensor) :
    SparseConvTensor × NetPTQ :=
  let r1 := SubMConvBNReLU.forward mode (SubMConvBNReLU.conv 1 32 3 1 1 m.w1) m.bn1 v
  let r2 := SubMConvBNReLU.forward mode (SubMConvBNReLU.conv 32 64 3 1 1 m.w2) m.bn2 r1.1
  let r3 := SparseConvBNReLU.forward mode (SparseConvBNReLU.conv 64 64 2 2 1 m.w3) m.bn3 r2.1
  let r4 := SparseConvBNReLU.forward mode (SparseConvBNReLU.conv 64 64 2 2 1 m.w4) m.bn4 r3.1
  let r5 := SparseConvBNReLU.forward mode (SparseConvBNReLU.conv 64 64 3 2 1 m.w5) m.bn5 r4.1
  let t6 := sparseConv2d
    { in_planes := 64, out_planes := 10, kernel_size := 4, stride := 4,
      padding := 0, groups := 1, weight := m.w6, bias := m.bias6 } r5.1
  (t6, { m with bn1 := r1.2, bn2 := r2.2, bn3 := r3.2, bn4 := r4.2, bn5 := r5.2 })

/-- `NetPTQ.forward` on an already-built sparse view: the convolution stack,
densify-and-flatten, and the final log-probability normalization. -/
def NetPTQ.forwardView (mode : Mode) (nf : List ℚ → ℕ → ℚ) (m : NetPTQ)
    (v : SparseConvTensor) : List (List ℚ) × NetPTQ :=
  let r := netPTQConvStack mode m v
  ((flattenDense r.1 10).map (logProbNormalize nf), r.2)

/-- `NetPTQ.forward` proper: accepts the explicit
`(features, indices, batch_size)` triple and rebuilds the view with spatial
shape `[28, 28]`, exactly as the source does. -/
def NetPTQ.forward (mode : Mode) (nf : List ℚ → ℕ → ℚ) (m : NetPTQ)
    (features : List (List ℚ)) (indices : List (ℕ × ℕ × ℕ))
    (batch_size : ℕ) : List (List ℚ) × NetPTQ :=
  NetPTQ.forwardView mode nf m ⟨features, indices, (28, 28), batch_size⟩

/-- The dense-batch entry point: construct the sparse view internally with
`SparseConvTensor.from_dense` and run the same forward body. -/
def NetPTQ.forwardDense (mode : Mode) (nf : List ℚ → ℕ → ℚ) (m : NetPTQ)
    (d : DenseBatch) : List (List ℚ) × NetPTQ :=
  NetPTQ.forwardView mode nf m (SparseConvTensor.from_dense d)

/-- Parameters of `Net`: three convolution stages, their batchnorm
parameters, and the two dense linear layers `fc1`, `fc2`. -/
structure Net where
  w1 : ℕ → ℕ → ℕ → ℕ → ℚ
  w2 : ℕ → ℕ → ℕ → ℕ → ℚ
  w3 : ℕ → ℕ → ℕ → ℕ → ℚ
  bn1 : BNParams
  bn2 : BNParams
  bn3 : BNParams
  fc1w : ℕ → ℕ → ℚ
  fc1b : ℕ → ℚ
  fc2w : ℕ → ℕ → ℚ
  fc2b : ℕ → ℚ

/-- `Net.forward`: the sparse sequential stack ending in densify, then per
row `dropout1 → fc1 → relu → dropout2 → fc2 → log_softmax`; the dropout masks
are drawn externally.  Returns the rows and the updated batchnorm states. -/
def Net.forward (mode : Mode) (nf : List ℚ → ℕ → ℚ) (mask1 mask2 : ℕ → Bool)
    (m : Net) (v : SparseConvTensor) : List (List ℚ) × Net :=
  let r1 := SubMConvBNReLU.forward mode (SubMConvBNReLU.conv 1 32 3 1 1 m.w1) m.bn1 v
  let r2 := SubMConvBNReLU.forward mode (SubMConvBNReLU.conv 32 64 3 1 1 m.w2) m.bn2 r1.1
  let r3 := SparseConvBNReLU.forward mode (SparseConvBNReLU.conv 64 64 2 2 1 m.w3) m.bn3 r2.1
  let rows := (flattenDense r3.1 64).map fun row =>
    logProbNormalize nf
      (linear m.fc2w m.fc2b 10
        (dropout mode mask2 (1 / 2)
          (reluV (linear m.fc1w m.fc1b 128 (dropout mode mask1 (1 / 4) row)))))
  (rows, { m with bn1 := r1.2, bn2 := r2.2, bn3 := r3.2 })

/-- Modelled from the spec: a quantization observer accumulating a running
min/max range across calibration batches. -/
structure Observer where
  lo : ℚ
  hi : ℚ

/-- Update an observer's running range from one tensor flowing past it. -/
def Observer.observe (o : Observer) (xs : List ℚ) : Observer :=
  xs.foldl (fun acc q => ⟨min acc.lo q, max acc.hi q⟩) o

/-- Modelled from the spec: the model produced by the prepare phase — the
network's parameters plus observers attached at the input and output
boundaries. -/
structure PreparedNetPTQ where
  model : NetPTQ
  act_obs : Observer
  out_obs : Observer

/-- One calibration batch, mirroring `calibrate`: build the sparse view from
the dense image, run the forward pass in evaluation mode with gradients
disabled, and let each observer update its running statistics. -/
def calibrateBatch (nf : List ℚ → ℕ → ℚ) (pm : PreparedNetPTQ)
    (d : DenseBatch) : PreparedNetPTQ :=
  let data_sp := SparseConvTensor.from_dense d
  let r := NetPTQ.forward .eval nf pm.model data_sp.features data_sp.indices
    data_sp.batch_size
  { model := r.2
    act_obs := data_sp.features.foldl Observer.observe pm.act_obs
    out_obs := r.1.foldl Observer.observe pm.out_obs }

/-- The calibrate phase: fold `calibrateBatch` over the calibration data. -/
def calibrate (nf : List ℚ → ℕ → ℚ) (pm : PreparedNetPTQ)
    (batches : List DenseBatch) : PreparedNetPTQ :=
  batches.foldl (calibrateBatch nf) pm

/-- Numeric precision of a tensor (`torch.float16` / `torch.float32`). -/
inductive DType where
  | f16
  | f32
deriving DecidableEq

/-- Operations whose result precision the relaxed-precision policy fixes. -/
inductive AmpOp where
  | convOp
  | linearOp
  | lossOp

/-- Modelled from the spec: the relaxed-precision numeric policy
(`torch.cuda.amp.autocast`) wrapping `forward` and `compute_loss` — stage
computations may run in reduced precision, but the policy must keep the loss
value itself in full precision before the scaling step. -/
def ampOpDtype : AmpOp → DType
  | .convOp => .f16
  | .linearOp => .f16
  | .lossOp => .f32

/-- Precision of the loss value just before the scaling step: under the fp16
flag the loss is produced by the policy's loss rule, otherwise everything is
full precision. -/
def lossDtypeBeforeScaling (fp16 : Bool) : DType :=
  if fp16 then ampOpDtype .lossOp else .f32

/-- The `assert loss.dtype is torch.float32` guard of `train`. -/
def lossDtypeAssert (fp16 : Bool) : Bool :=
  lossDtypeBeforeScaling fp16 == DType.f32

/-- Loss precision trace of one training epoch over `n` batches. -/
def trainLossDtypes (fp16 : Bool) (n : ℕ) : List DType :=
  List.replicate n (lossDtypeBeforeScaling fp16)

/-- All-zero network parameters, used to instantiate witnesses. -/
def zeroBN : BNParams :=
  { scale := fun _ => 1, shift := fun _ => 0, running_mean := fun _ => 0 }

/-- All-zero `NetPTQ` parameters, used to instantiate witnesses. -/
def zeroNetPTQ : NetPTQ :=
  { w1 := fun _ _ _ _ => 0, w2 := fun _ _ _ _ => 0, w3 := fun _ _ _ _ => 0
    w4 := fun _ _ _ _ => 0, w5 := fun _ _ _ _ => 0, w6 := fun _ _ _ _ => 0
    bias6 := fun _ => 0
    bn1 := zeroBN, bn2 := zeroBN, bn3 := zeroBN, bn4 := zeroBN, bn5 := zeroBN }

/-- Trivial log-probability entry function, used to instantiate witnesses. -/
def zeroNf : List ℚ → ℕ → ℚ := fun _ _ => 0

/-- A 1-sample 1×2 single-channel dense batch with one active site. -/
def sampleBatch : DenseBatch :=
  { batch_size := 1, H := 1, W := 2, channels := 1
    data := fun _ _ x => if x = 0 then [1] else [0] }

/-- A 1-sample 28×28 single-channel dense batch with one active site. -/
def sampleBatch28 : DenseBatch :=
  { batch_size := 1, H := 28, W := 28, channels := 1
    data := fun _ y x => if y = 0 ∧ x = 0 then [1] else [0] }

theorem lookupCoord_cons (c : ℕ × ℕ × ℕ) (p : (ℕ × ℕ × ℕ) × List ℚ)
    (rest : List ((ℕ × ℕ × ℕ) × List ℚ)) :
    lookupCoord c (p :: rest) = if p.1 = c then p.2 else lookupCoord c rest := rfl

theorem lookupCoord_zip_map (g : ℕ × ℕ × ℕ → List ℚ) :
    ∀ (idx : List (ℕ × ℕ × ℕ)) (c : ℕ × ℕ × ℕ), c ∈ idx →
      lookupCoord c (idx.zip (idx.map g)) = g c := by
  intro idx
  induction idx with
  | nil => intro c h; simp at h
  | cons a tl ih =>
    intro c hc
    show lookupCoord c ((a, g a) :: tl.zip (tl.map g)) = g c
    rw [lookupCoord_cons]
    by_cases h : a = c
    · simp [h]
    · rw [if_neg h]
      rcases List.mem_cons.mp hc with h1 | h1
      · exact absurd h1.symm h
      · exact ih c h1

theorem lookupCoord_zip_map_not_mem (g : ℕ × ℕ × ℕ → List ℚ) :
    ∀ (idx : List (ℕ × ℕ × ℕ)) (c : ℕ × ℕ × ℕ), c ∉ idx →
      lookupCoord c (idx.zip (idx.map g)) = [] := by
  intro idx
  induction idx with
  | nil => intro c _; rfl
  | cons a tl ih =>
    intro c hc
    show lookupCoord c ((a, g a) :: tl.zip (tl.map g)) = []
    rw [lookupCoord_cons]
    have h1 : a ≠ c := fun h => hc (h ▸ List.mem_cons_self a tl)
    rw [if_neg h1]
    exact ih c fun h => hc (List.mem_cons_of_mem a h)

theorem padTo_nil (n : ℕ) : padTo n [] = List.replicate n 0 := by
  refine List.eq_replicate_iff.mpr ⟨by simp [padTo], ?_⟩
  intro q hq
  simp [padTo] at hq
  obtain ⟨i, _, rfl⟩ := hq
  rfl

theorem padTo_length_self (v : List ℚ) : padTo v.length v = v := by
  apply List.ext_getElem
  · simp [padTo]
  · intro i h1 h2
    simp only [padTo, List.getElem_map, List.getElem_range]
    exact List.getD_eq_getElem v 0 h2

theorem mem_rowSites {d : DenseBatch} {b y : ℕ} {c : ℕ × ℕ × ℕ} :
    c ∈ rowSites d b y ↔
      c.1 = b ∧ c.2.1 = y ∧ c.2.2 < d.W ∧
        d.data b y c.2.2 ≠ List.replicate d.channels 0 := by
  obtain ⟨b', y', x'⟩ := c
  simp only [rowSites, List.mem_map, List.mem_filter, List.mem_range,
    decide_not, Prod.mk.injEq]
  constructor
  · rintro ⟨x, hx, rfl, rfl, rfl⟩
    simp only [Bool.not_eq_eq_eq_not, Bool.not_true, decide_eq_false_iff_not] at hx
    exact ⟨rfl, rfl, hx.1, hx.2⟩
  · rintro ⟨rfl, rfl, hx, hne⟩
    exact ⟨x', by simp [hx, hne], rfl, rfl, rfl⟩

theorem mem_planeSites {d : DenseBatch} {b : ℕ} {c : ℕ × ℕ × ℕ} :
    c ∈ planeSites d b ↔
      c.1 = b ∧ c.2.1 < d.H ∧ c.2.2 < d.W ∧
        d.data b c.2.1 c.2.2 ≠ List.replicate d.channels 0 := by
  simp only [planeSites, List.mem_flatMap, List.mem_range]
  constructor
  · rintro ⟨y, hy, hc⟩
    obtain ⟨h1, h2, h3, h4⟩ := mem_rowSites.mp hc
    exact ⟨h1, h2 ▸ hy, h3, h2 ▸ h4⟩
  · rintro ⟨h1, h2, h3, h4⟩
    exact ⟨c.2.1, h2, mem_rowSites.mpr ⟨h1, rfl, h3, h4⟩⟩

theorem mem_activeSites {d : DenseBatch} {c : ℕ × ℕ × ℕ} :
    c ∈ d.activeSites ↔
      c.1 < d.batch_size ∧ c.2.1 < d.H ∧ c.2.2 < d.W ∧
        d.data c.1 c.2.1 c.2.2 ≠ List.replicate d.channels 0 := by
  simp only [DenseBatch.activeSites, List.mem_flatMap, List.mem_range]
  constructor
  · rintro ⟨b, hb, hc⟩
    obtain ⟨h1, h2, h3, h4⟩ := mem_planeSites.mp hc
    exact ⟨h1 ▸ hb, h2, h3, h1 ▸ h4⟩
  · rintro ⟨h1, h2, h3, h4⟩
    exact ⟨c.1, h1, mem_planeSites.mpr ⟨rfl, h2, h3, h4⟩⟩

theorem nodup_rowSites (d : DenseBatch) (b y : ℕ) : (rowSites d b y).Nodup := by
  refine List.Nodup.map ?_ ((List.nodup_range _).filter _)
  intro x1 x2 h
  simpa using h

theorem nodup_planeSites (d : DenseBatch) (b : ℕ) : (planeSites d b).Nodup := by
  rw [planeSites, List.nodup_flatMap]
  refine ⟨fun y _ => nodup_rowSites d b y, ?_⟩
  refine (List.pairwise_lt_range d.H).imp ?_
  intro y1 y2 hlt c hc1 hc2
  have e1 := (mem_rowSites.mp hc1).2.1
  have e2 := (mem_rowSites.mp hc2).2.1
  omega

theorem nodup_activeSites (d : DenseBatch) : d.activeSites.Nodup := by
  rw [DenseBatch.activeSites, List.nodup_flatMap]
  refine ⟨fun b _ => nodup_planeSites d b, ?_⟩
  refine (List.pairwise_lt_range d.batch_size).imp ?_
  intro b1 b2 hlt c hc1 hc2
  have e1 := (mem_planeSites.mp hc1).1
  have e2 := (mem_planeSites.mp hc2).1
  omega

/-- Claim C1: densifying the sparse view built from a dense batch returns the
batch exactly — `ToDense` scatters the features back into a zero-initialized
dense tensor of shape `[batch_size, H, W, channels]` indexed by the
coordinates, the coordinates of `from_dense` never collide (no
`DuplicateCoordinate` error), and the round trip is the identity at every
in-range site. -/
theorem from_dense_toDense_round_trip (d : DenseBatch)
    (hwf : ∀ b < d.batch_size, ∀ y < d.H, ∀ x < d.W,
      (d.data b y x).length = d.channels)
    (b y x : ℕ) (hb : b < d.batch_size) (hy : y < d.H) (hx : x < d.W) :
    (SparseConvTensor.from_dense d).indices.Nodup ∧
      (SparseConvTensor.from_dense d).toDense d.channels b y x = d.data b y x := by
  refine ⟨nodup_activeSites d, ?_⟩
  show padTo d.channels (featAt (SparseConvTensor.from_dense d) (b, y, x)) = d.data b y x
  have hfeat : featAt (SparseConvTensor.from_dense d) (b, y, x) =
      lookupCoord (b, y, x)
        (d.activeSites.zip (d.activeSites.map fun c => d.data c.1 c.2.1 c.2.2)) := rfl
  by_cases hz : d.data b y x = List.replicate d.channels 0
  · have hnm : (b, y, x) ∉ d.activeSites := by
      intro hmem
      exact (mem_activeSites.mp hmem).2.2.2 hz
    rw [hfeat, lookupCoord_zip_map_not_mem _ _ _ hnm, padTo_nil, hz]
  · have hm : (b, y, x) ∈ d.activeSites := mem_activeSites.mpr ⟨hb, hy, hx, hz⟩
    rw [hfeat, lookupCoord_zip_map _ _ _ hm]
    have hlen := hwf b hb y hy x hx
    calc padTo d.channels (d.data b y x)
        = padTo (d.data b y x).length (d.data b y x) := by rw [hlen]
      _ = d.data b y x := padTo_length_self _

/-- Witness for C1: the round trip evaluated on a concrete 1×1×2
single-channel batch at site (0,0,0). -/
theorem from_dense_toDense_round_trip_witness :
    0 < sampleBatch.batch_size ∧ 0 < sampleBatch.H ∧ 0 < sampleBatch.W ∧
      ((SparseConvTensor.from_dense sampleBatch).indices.Nodup ∧
        (SparseConvTensor.from_dense sampleBatch).toDense sampleBatch.channels 0 0 0 =
          sampleBatch.data 0 0 0) :=
  ⟨by decide, by decide, by decide,
   from_dense_toDense_round_trip sampleBatch (by decide) 0 0 0
     (by decide) (by decide) (by decide)⟩

/-- Claim C2: every `SubMConvBNReLU` stage (submanifold mode), in either
training or evaluation mode and for any parameters, maps any input view to an
output whose coordinate set equals the input coordinate set exactly. -/
theorem subMConvBNReLU_preserves_indices (mode : Mode)
    (in_planes out_planes kernel_size stride groups : ℕ)
    (w : ℕ → ℕ → ℕ → ℕ → ℚ) (B : BNParams) (t : SparseConvTensor) :
    ((SubMConvBNReLU.forward mode
        (SubMConvBNReLU.conv in_planes out_planes kernel_size stride groups w)
        B t).1).indices = t.indices := rfl

/-- Claim C3: a strided `SparseConvBNReLU` stage on input spatial shape
`(H, W)` produces output spatial extent
`floor((H + 2*padding - kernel_size)/stride) + 1` in each dimension, where
the stage's padding is `(kernel_size - 1) // 2`. -/
theorem sparseConvBNReLU_spatial_shape (mode : Mode)
    (in_planes out_planes kernel_size stride groups : ℕ)
    (w : ℕ → ℕ → ℕ → ℕ → ℚ) (B : BNParams) (t : SparseConvTensor) (H W : ℕ)
    (h : t.spatial_shape = (H, W)) :
    ((SparseConvBNReLU.forward mode
        (SparseConvBNReLU.conv in_planes out_planes kernel_size stride groups w)
        B t).1).spatial_shape =
      ((H + 2 * ((kernel_size - 1) / 2) - kernel_size) / stride + 1,
       (W + 2 * ((kernel_size - 1) / 2) - kernel_size) / stride + 1) := by
  show (convOutExtent t.spatial_shape.1 kernel_size stride ((kernel_size - 1) / 2),
        convOutExtent t.spatial_shape.2 kernel_size stride ((kernel_size - 1) / 2)) = _
  rw [h]
  rfl

/-- Witness for C3: a 28×28 input through kernel 2, stride 2 (derived padding
0) yields a 14×14 output. -/
theorem sparseConvBNReLU_spatial_shape_witness :
    (⟨[], [], (28, 28), 1⟩ : SparseConvTensor).spatial_shape = (28, 28) ∧
      ((SparseConvBNReLU.forward .eval
          (SparseConvBNReLU.conv 64 64 2 2 1 fun _ _ _ _ => 0) zeroBN
          ⟨[], [], (28, 28), 1⟩).1).spatial_shape = (14, 14) :=
  ⟨rfl, sparseConvBNReLU_spatial_shape .eval 64 64 2 2 1 (fun _ _ _ _ => 0)
    zeroBN ⟨[], [], (28, 28), 1⟩ 28 28 rfl⟩

/-- Claim C10: both stage constructors derive the padding from the kernel
size alone as `(kernel_size - 1) // 2`; consequently a stride-1 stage with
odd kernel size `2*mhalf+1` preserves the dense spatial extent, and a stage
with even kernel size `2*(mhalf+1)` gets padding strictly below half the
kernel size. -/
theorem conv_stage_padding_derivation (mode : Mode)
    (in_planes out_planes kernel_size stride groups mhalf : ℕ)
    (w : ℕ → ℕ → ℕ → ℕ → ℚ) (B : BNParams) (t : SparseConvTensor) (H W : ℕ)
    (h : t.spatial_shape = (H, W)) (hH : 0 < H) (hW : 0 < W) :
    (SubMConvBNReLU.conv in_planes out_planes kernel_size stride groups w).padding =
      (kernel_size - 1) / 2 ∧
    (SparseConvBNReLU.conv in_planes out_planes kernel_size stride groups w).padding =
      (kernel_size - 1) / 2 ∧
    ((SparseConvBNReLU.forward mode
        (SparseConvBNReLU.conv in_planes out_planes (2 * mhalf + 1) 1 groups w)
        B t).1).spatial_shape = t.spatial_shape ∧
    (SparseConvBNReLU.conv in_planes out_planes (2 * (mhalf + 1)) stride groups w).padding <
      2 * (mhalf + 1) / 2 := by
  refine ⟨rfl, rfl, ?_, ?_⟩
  · show (convOutExtent t.spatial_shape.1 (2 * mhalf + 1) 1 ((2 * mhalf + 1 - 1) / 2),
          convOutExtent t.spatial_shape.2 (2 * mhalf + 1) 1 ((2 * mhalf + 1 - 1) / 2)) =
        t.spatial_shape
    rw [h]
    unfold convOutExtent
    have e : ∀ n : ℕ, 0 < n →
        (n + 2 * ((2 * mhalf + 1 - 1) / 2) - (2 * mhalf + 1)) / 1 + 1 = n := by
      intro n hn
      omega
    rw [e H hH, e W hW]
  · show (2 * (mhalf + 1) - 1) / 2 < 2 * (mhalf + 1) / 2
    omega

/-- Witness for C10 at kernel size 3 (`mhalf = 1`) on a 28×28 input. -/
theorem conv_stage_padding_derivation_witness :
    (⟨[], [], (28, 28), 1⟩ : SparseConvTensor).spatial_shape = (28, 28) ∧
    0 < 28 ∧
    ((SubMConvBNReLU.conv 64 64 3 2 1 fun _ _ _ _ => 0).padding = (3 - 1) / 2 ∧
      (SparseConvBNReLU.conv 64 64 3 2 1 fun _ _ _ _ => 0).padding = (3 - 1) / 2 ∧
      ((SparseConvBNReLU.forward .eval
          (SparseConvBNReLU.conv 64 64 (2 * 1 + 1) 1 1 fun _ _ _ _ => 0)
          zeroBN ⟨[], [], (28, 28), 1⟩).1).spatial_shape =
        (⟨[], [], (28, 28), 1⟩ : SparseConvTensor).spatial_shape ∧
      (SparseConvBNReLU.conv 64 64 (2 * (1 + 1)) 2 1 fun _ _ _ _ => 0).padding <
        2 * (1 + 1) / 2) :=
  ⟨rfl, by decide,
   conv_stage_padding_derivation .eval 64 64 3 2 1 1 (fun _ _ _ _ => 0) zeroBN
     ⟨[], [], (28, 28), 1⟩ 28 28 rfl (by decide) (by decide)⟩

theorem logProbNormalize_length (nf : List ℚ → ℕ → ℚ) (v : List ℚ) :
    (logProbNormalize nf v).length = v.length := by
  simp [logProbNormalize]

theorem length_flatMap_const {α β : Type} (l : List α) (f : α → List β) (k : ℕ)
    (h : ∀ a ∈ l, (f a).length = k) : (l.flatMap f).length = l.length * k := by
  induction l with
  | nil => simp
  | cons a tl ih =>
    rw [List.flatMap_cons, List.length_append, h a (List.mem_cons_self a tl),
      ih fun x hx => h x (List.mem_cons_of_mem a hx), List.length_cons,
      Nat.succ_mul]
    omega

theorem flattenDense_length (t : SparseConvTensor) (channels : ℕ) :
    (flattenDense t channels).length = t.batch_size := by
  simp [flattenDense]

theorem flattenDense_map_length (t : SparseConvTensor) (channels : ℕ) :
    (flattenDense t channels).map List.length =
      List.replicate t.batch_size
        (t.spatial_shape.1 * (t.spatial_shape.2 * channels)) := by
  rw [flattenDense, List.map_map]
  refine List.eq_replicate_iff.mpr ⟨by simp, ?_⟩
  intro n hn
  rw [List.mem_map] at hn
  obtain ⟨b, hb, rfl⟩ := hn
  simp only [Function.comp]
  rw [length_flatMap_const _ _ (t.spatial_shape.2 * channels) ?_, List.length_range]
  intro y hy
  rw [length_flatMap_const _ _ channels ?_, List.length_range]
  intro x hx
  simp [padTo]

theorem subMConvBNReLU_fwd_spatial (mode : Mode) (P : ConvParams)
    (B : BNParams) (t : SparseConvTensor) :
    ((SubMConvBNReLU.forward mode P B t).1).spatial_shape = t.spatial_shape := rfl

theorem sparseConvBNReLU_fwd_spatial (mode : Mode) (P : ConvParams)
    (B : BNParams) (t : SparseConvTensor) :
    ((SparseConvBNReLU.forward mode P B t).1).spatial_shape =
      (convOutExtent t.spatial_shape.1 P.kernel_size P.stride P.padding,
       convOutExtent t.spatial_shape.2 P.kernel_size P.stride P.padding) := rfl

theorem sparseConv2d_spatial (P : ConvParams) (t : SparseConvTensor) :
    (sparseConv2d P t).spatial_shape =
      (convOutExtent t.spatial_shape.1 P.kernel_size P.stride P.padding,
       convOutExtent t.spatial_shape.2 P.kernel_size P.stride P.padding) := rfl

/-- Claim C4: the `NetPTQ` six-stage network fed a 28×28 single-channel batch
of size `N` (as the explicit triple its forward accepts) produces an output
of shape `[N, 10]`: `N` rows, each of length 10. -/
theorem netPTQ_output_shape (mode : Mode) (nf : List ℚ → ℕ → ℚ) (m : NetPTQ)
    (features : List (List ℚ)) (indices : List (ℕ × ℕ × ℕ)) (N : ℕ) :
    ((NetPTQ.forward mode nf m features indices N).1).length = N ∧
      ((NetPTQ.forward mode nf m features indices N).1).map List.length =
        List.replicate N 10 := by
  have hout : (NetPTQ.forward mode nf m features indices N).1 =
      (flattenDense (netPTQConvStack mode m ⟨features, indices, (28, 28), N⟩).1 10).map
        (logProbNormalize nf) := rfl
  have hsp : (netPTQConvStack mode m ⟨features, indices, (28, 28), N⟩).1.spatial_shape =
      (1, 1) := by
    simp only [netPTQConvStack, sparseConv2d_spatial, sparseConvBNReLU_fwd_spatial,
      subMConvBNReLU_fwd_spatial, SparseConvBNReLU.conv, SubMConvBNReLU.conv]
    norm_num [convOutExtent]
  have hbs : (netPTQConvStack mode m ⟨features, indices, (28, 28), N⟩).1.batch_size =
      N := rfl
  constructor
  · rw [hout, List.length_map, flattenDense_length, hbs]
  · rw [hout, List.map_map]
    have hcomp : List.length ∘ logProbNormalize nf = List.length := by
      funext v
      exact logProbNormalize_length nf v
    rw [hcomp, flattenDense_map_length, hsp, hbs]
    norm_num

/-- Claim C5: the two input forms of the network forward — a pre-built dense
batch from which the sparse view is constructed internally, and the explicit
`(features, indices, batch_size)` triple — produce identical output for the
same underlying sparsity pattern. -/
theorem netPTQ_dense_triple_agree (mode : Mode) (nf : List ℚ → ℕ → ℚ)
    (m : NetPTQ) (d : DenseBatch) (hH : d.H = 28) (hW : d.W = 28) :
    NetPTQ.forwardDense mode nf m d =
      NetPTQ.forward mode nf m (SparseConvTensor.from_dense d).features
        (SparseConvTensor.from_dense d).indices
        (SparseConvTensor.from_dense d).batch_size := by
  have hsp : (SparseConvTensor.from_dense d).spatial_shape = (28, 28) := by
    show (d.H, d.W) = (28, 28)
    rw [hH, hW]
  show NetPTQ.forwardView mode nf m (SparseConvTensor.from_dense d) =
      NetPTQ.forwardView mode nf m
        ⟨(SparseConvTensor.from_dense d).features,
         (SparseConvTensor.from_dense d).indices, (28, 28),
         (SparseConvTensor.from_dense d).batch_size⟩
  rw [← hsp]

/-- Witness for C5 on a concrete 28×28 single-channel batch with one active
site and all-zero network parameters. -/
theorem netPTQ_dense_triple_agree_witness :
    sampleBatch28.H = 28 ∧ sampleBatch28.W = 28 ∧
      NetPTQ.forwardDense .eval zeroNf zeroNetPTQ sampleBatch28 =
        NetPTQ.forward .eval zeroNf zeroNetPTQ
          (SparseConvTensor.from_dense sampleBatch28).features
          (SparseConvTensor.from_dense sampleBatch28).indices
          (SparseConvTensor.from_dense sampleBatch28).batch_size :=
  ⟨rfl, rfl, netPTQ_dense_triple_agree .eval zeroNf zeroNetPTQ sampleBatch28 rfl rfl⟩

theorem netPTQ_forward_eval_params (nf : List ℚ → ℕ → ℚ) (m : NetPTQ)
    (features : List (List ℚ)) (indices : List (ℕ × ℕ × ℕ)) (N : ℕ) :
    (NetPTQ.forward .eval nf m features indices N).2 = m := rfl

/-- Claim C6: in evaluation mode the network forward is deterministic — it
leaves the batchnorm running statistics (the only forward-mutable state)
unchanged, so a second call on identical weights and identical input produces
the same output; and the evaluation-mode output is independent of the drawn
dropout masks. -/
theorem netPTQ_eval_deterministic (nf : List ℚ → ℕ → ℚ) (m : NetPTQ)
    (features : List (List ℚ)) (indices : List (ℕ × ℕ × ℕ)) (N : ℕ)
    (mask1 mask2 mask1' mask2' : ℕ → Bool) (mNet : Net)
    (v : SparseConvTensor) :
    (NetPTQ.forward .eval nf m features indices N).2 = m ∧
      (NetPTQ.forward .eval nf (NetPTQ.forward .eval nf m features indices N).2
          features indices N).1 =
        (NetPTQ.forward .eval nf m features indices N).1 ∧
      (Net.forward .eval nf mask1 mask2 mNet v).1 =
        (Net.forward .eval nf mask1' mask2' mNet v).1 := by
  refine ⟨netPTQ_forward_eval_params nf m features indices N, ?_, rfl⟩
  rw [netPTQ_forward_eval_params]

/-- Claim C7: in evaluation mode the network forward factors as the
sequential composition of its sparse stages ending in the densify step,
followed by the dense linear layers with dropout acting as the identity
(independently of the drawn masks), terminated by the log-probability
normalization over the class scores. -/
theorem net_forward_eval_structure (nf : List ℚ → ℕ → ℚ)
    (mask1 mask2 : ℕ → Bool) (m : Net) (v : SparseConvTensor) :
    (Net.forward .eval nf mask1 mask2 m v).1 =
      (flattenDense
        ((SparseConvBNReLU.forward .eval (SparseConvBNReLU.conv 64 64 2 2 1 m.w3) m.bn3
          ((SubMConvBNReLU.forward .eval (SubMConvBNReLU.conv 32 64 3 1 1 m.w2) m.bn2
            ((SubMConvBNReLU.forward .eval (SubMConvBNReLU.conv 1 32 3 1 1 m.w1) m.bn1
              v).1)).1)).1) 64).map
        fun row =>
          logProbNormalize nf
            (linear m.fc2w m.fc2b 10 (reluV (linear m.fc1w m.fc1b 128 row))) := rfl

/-- Claim C8: in the reduced-precision training mode, the loss value is in
full precision (`float32`) just before the scaling step on every batch of the
epoch, and the assertion checking this never fails. -/
theorem fp16_loss_full_precision (n : ℕ) :
    trainLossDtypes true n = List.replicate n DType.f32 ∧
      lossDtypeAssert true = true :=
  ⟨rfl, rfl⟩

/-- Claim C9: the calibrate phase never changes a parameter of the network —
after any sequence of calibration batches the model's parameters equal the
parameters before the call; only the observers' running statistics are
updated. -/
theorem calibrate_preserves_params (nf : List ℚ → ℕ → ℚ) (pm : PreparedNetPTQ)
    (batches : List DenseBatch) :
    (calibrate nf pm batches).model = pm.model := by
  induction batches generalizing pm with
  | nil => rfl
  | cons d tl ih =>
    show (calibrate nf (calibrateBatch nf pm d) tl).model = pm.model
    rw [ih (calibrateBatch nf pm d)]
    rfl
